import Mathlib

/-!
Verification of the RIME device-filesystem core (iOS content addressing,
encrypted-backup decrypt lifecycle, zip materialization, path splitting).
Python source functions are embedded as executable Lean definitions;
machine-level details (SQLite, the OS filesystem, the third-party
decryption library) are modelled explicitly where the functions touch them.
-/

set_option maxRecDepth 100000

/-- 2^32, the modulus for 32-bit words in the SHA-1 computation. -/
def w32 : Nat := 4294967296

/-- Rotate a 32-bit word (`x < w32`) left by `n` bits (`0 < n < 32`). -/
def rotl (n x : Nat) : Nat := ((x <<< n) % w32) ||| (x >>> (32 - n))

/-- The five 32-bit registers of the SHA-1 state. -/
structure Sha1State where
  h0 : Nat
  h1 : Nat
  h2 : Nat
  h3 : Nat
  h4 : Nat

/-- SHA-1 initialisation vector. -/
def sha1Init : Sha1State := ⟨0x67452301, 0xEFCDAB89, 0x98BADCFE, 0x10325476, 0xC3D2E1F0⟩

/-- Big-endian 32-bit words from a byte list (length a multiple of 4). -/
def wordsOfBytes : List Nat → List Nat
  | b0 :: b1 :: b2 :: b3 :: rest => (((b0 * 256 + b1) * 256 + b2) * 256 + b3) :: wordsOfBytes rest
  | _ => []

/-- Message-schedule extension, on the reversed word list (head = newest word).
`fuel` counts the words still to append (64 for a full schedule). -/
def sha1ExtendRev : Nat → List Nat → List Nat
  | 0, rws => rws
  | fuel + 1, rws =>
      sha1ExtendRev fuel
        ((rotl 1 (rws.getD 2 0 ^^^ rws.getD 7 0 ^^^ rws.getD 13 0 ^^^ rws.getD 15 0)) :: rws)

/-- SHA-1 round function for round `t`. -/
def sha1F (t b c d : Nat) : Nat :=
  if t < 20 then (b &&& c) ||| ((b ^^^ (w32 - 1)) &&& d)
  else if t < 40 then b ^^^ c ^^^ d
  else if t < 60 then (b &&& c) ||| (b &&& d) ||| (c &&& d)
  else b ^^^ c ^^^ d

/-- SHA-1 round constant for round `t`. -/
def sha1K (t : Nat) : Nat :=
  if t < 20 then 0x5A827999
  else if t < 40 then 0x6ED9EBA1
  else if t < 60 then 0x8F1BBCDC
  else 0xCA62C1D6

/-- Run the 80 SHA-1 rounds over the word schedule `ws`, starting at round `t`. -/
def sha1Rounds : Nat → List Nat → Sha1State → Sha1State
  | _, [], st => st
  | t, w :: ws, st =>
      sha1Rounds (t + 1) ws
        ⟨(rotl 5 st.h0 + sha1F t st.h1 st.h2 st.h3 + st.h4 + sha1K t + w) % w32,
         st.h0, rotl 30 st.h1, st.h2, st.h3⟩

/-- Process one 64-byte chunk. -/
def sha1ProcessChunk (st : Sha1State) (chunk : List Nat) : Sha1State :=
  let ws80 := (sha1ExtendRev 64 (wordsOfBytes chunk).reverse).reverse
  let r := sha1Rounds 0 ws80 ⟨st.h0, st.h1, st.h2, st.h3, st.h4⟩
  ⟨(st.h0 + r.h0) % w32, (st.h1 + r.h1) % w32, (st.h2 + r.h2) % w32,
   (st.h3 + r.h3) % w32, (st.h4 + r.h4) % w32⟩

/-- Split a byte list into 64-byte chunks; `fuel` bounds the number of chunks. -/
def sha1Chunks : Nat → List Nat → List (List Nat)
  | 0, _ => []
  | _, [] => []
  | fuel + 1, bytes => bytes.take 64 :: sha1Chunks fuel (bytes.drop 64)

/-- SHA-1 padding: `0x80`, zeros to 56 mod 64, then the 64-bit big-endian bit length. -/
def sha1Pad (msg : List Nat) : List Nat :=
  let len := msg.length
  let k := (119 - (len % 64)) % 64
  msg ++ [0x80] ++ List.replicate k 0 ++
    ([56, 48, 40, 32, 24, 16, 8, 0].map (fun s => ((len * 8) >>> s) % 256))

/-- SHA-1 over a byte list: pad, then fold the compression function over the chunks. -/
def sha1Compute (msg : List Nat) : Sha1State :=
  (sha1Chunks (msg.length / 64 + 2) (sha1Pad msg)).foldl sha1ProcessChunk sha1Init

/-- Lowercase hexadecimal digit for `n < 16`, as Python `hexdigest` produces. -/
def hexDigitChar (n : Nat) : Char := if n < 10 then Char.ofNat (48 + n) else Char.ofNat (87 + n)

/-- Eight lowercase hex digits of a 32-bit word, most significant first. -/
def toHex8 (x : Nat) : List Char := [28, 24, 20, 16, 12, 8, 4, 0].map (fun s => hexDigitChar ((x >>> s) % 16))

/-- The 40 hex characters of the SHA-1 digest of a byte list. -/
def sha1HexChars (msg : List Nat) : List Char :=
  let st := sha1Compute msg
  toHex8 st.h0 ++ toHex8 st.h1 ++ toHex8 st.h2 ++ toHex8 st.h3 ++ toHex8 st.h4

/-- UTF-8 encoding of one character, as Python `str.encode()` produces. -/
def utf8EncodeChar (c : Char) : List Nat :=
  let n := c.toNat
  if n < 128 then [n]
  else if n < 2048 then [192 ||| (n >>> 6), 128 ||| (n &&& 63)]
  else if n < 65536 then [224 ||| (n >>> 12), 128 ||| ((n >>> 6) &&& 63), 128 ||| (n &&& 63)]
  else [240 ||| (n >>> 18), 128 ||| ((n >>> 12) &&& 63), 128 ||| ((n >>> 6) &&& 63), 128 ||| (n &&& 63)]

/-- UTF-8 encoding of a string. -/
def utf8Encode (s : String) : List Nat := (s.data.map utf8EncodeChar).flatten

/-- `hashlib.sha1(s.encode()).hexdigest()`: the lowercase-hex SHA-1 digest of a string. -/
def sha1Hex (s : String) : String := ⟨sha1HexChars (utf8Encode s)⟩

/-- Does a character list start with a slash (Python `s.startswith('/')`)? -/
def startsWithSlash : List Char → Bool
  | [] => false
  | c :: _ => c == '/'

/-- Does a character list end with a slash (Python `s.endswith('/')`)? -/
def endsWithSlash (l : List Char) : Bool := startsWithSlash l.reverse

/-- `posixpath.join(a, b)`: `b` if absolute; else append, inserting `'/'`
unless `a` is empty or already ends in `'/'`. -/
def posixpathJoin (a b : String) : String :=
  if startsWithSlash b.data then b
  else if a.data.isEmpty || endsWithSlash a.data then a ++ b
  else a ++ "/" ++ b

/-- Python `path.split('/', 1)` on a character list: `none` when there is no
slash (where the Python two-variable unpacking would fail), else the parts
before and after the first slash. -/
def splitFirstSlash : List Char → Option (List Char × List Char)
  | [] => none
  | c :: rest =>
      if c == '/' then some ([], rest)
      else
        match splitFirstSlash rest with
        | none => none
        | some (d, r) => some (c :: d, r)

/-- Python `file_id[:2]`: the first two characters of a string. -/
def pySlice2 (s : String) : String := ⟨s.data.take 2⟩

/-- A row of the `Files` table of an iOS backup `Manifest.db`. -/
structure FilesRow where
  fileID : String
  domain : String
  relativePath : String
deriving DecidableEq

/-- The `Files` table content of a manifest database, in table order. -/
abbrev Manifest : Type := List FilesRow

/-- `_IosManifest._get_ios_hash(domain, relative_path)`:
SHA-1 hex digest of `"{domain}-{relative_path}"`. -/
def get_ios_hash (domain relative_path : String) : String :=
  sha1Hex (domain ++ "-" ++ relative_path)

/-- `_IosManifest.get_hashed_pathname(path)`: split `path` at the first slash
into `domain` and `relative_path` (`none` models the `ValueError` when there
is no slash); take `fileID` from the first manifest row matching both, else
the SHA-1 digest of `domain-relative_path`; return
`posixpath.join(file_id[:2], file_id)`. -/
def get_hashed_pathname (manifest : Manifest) (path : String) : Option String :=
  match splitFirstSlash path.data with
  | none => none
  | some (d, r) =>
      let domain : String := ⟨d⟩
      let relative_path : String := ⟨r⟩
      let file_id :=
        match List.find? (fun row => row.domain == domain && row.relativePath == relative_path) manifest with
        | some row => row.fileID
        | none => get_ios_hash domain relative_path
      some (posixpathJoin (pySlice2 file_id) file_id)

/-- Errors raised by the embedded functions.  Modelled from the spec:
`exceptions.py` (with `NotDecryptedError`, `WrongPassphraseError`,
`NoPassphraseError`) is imported by `ios.py` but absent from the sources;
the spec names the corresponding error kinds `NotDecrypted`,
`WrongPassphrase`, `NoPassphrase`, calls the `FileExistsError` of
`add_file` `HashCollision`, and calls the `ValueError` of
`get_zipfile_main_dir` `MalformedArchive`.  `valueError` models the Python
`ValueError` raised when unpacking `path.split('/', 1)` fails. -/
inductive RimeError where
  | notDecrypted
  | wrongPassphrase
  | noPassphrase
  | hashCollision (path : String)
  | malformedArchive
  | valueError
deriving DecidableEq

/-- `_IosManifest.add_file(path)`: derive the hash of `domain-relative_path`;
if no `Files` row has that `fileID`, insert `(hash, domain, relative_path)`;
if the first such row is for the same pair, succeed without change; else
raise `FileExistsError(path)` (the spec's `HashCollision`). -/
def add_file (manifest : Manifest) (path : String) : Except RimeError Manifest :=
  match splitFirstSlash path.data with
  | none => Except.error RimeError.valueError
  | some (d, r) =>
      let domain : String := ⟨d⟩
      let relative_path : String := ⟨r⟩
      let ios_hash := get_ios_hash domain relative_path
      match List.find? (fun row => row.fileID == ios_hash) manifest with
      | none => Except.ok (manifest ++ [⟨ios_hash, domain, relative_path⟩])
      | some row =>
          if row.relativePath == relative_path && row.domain == domain then
            Except.ok manifest
          else
            Except.error (RimeError.hashCollision path)

/-- A directory entry as consumed by `walk`: its full path and whether
`is_dir()` holds of its stat mode. -/
structure DirEntryM where
  path : String
  isDirectory : Bool
deriving DecidableEq

/-- `_IosManifest.scandir(path)`: returns `[]` unconditionally (the directory
listing code below the `return []` is unreachable). -/
def iosManifestScandir (manifest : Manifest) (path : String) : List DirEntryM := []

/-- `IosDeviceFilesystem`: a plain (non-encrypted) iOS backup filesystem,
as its root directory and the `Files` rows of its `Manifest.db`. -/
structure IosFS where
  root : String
  manifest : Manifest

/-- `IosDeviceFilesystem.scandir(path)`: delegates to `_IosManifest.scandir`. -/
def IosFS.scandir (fs : IosFS) (path : String) : List DirEntryM :=
  iosManifestScandir fs.manifest path

/-- `IosDeviceFilesystem.open(path)`: `ios_open_raw` on the hashed pathname,
i.e. the Python call `open(os.path.join(root, hashed), 'rb')`, modelled as
the `(pathname, mode)` pair handed to the OS `open`. -/
def IosFS.open_ (fs : IosFS) (path : String) : Except RimeError (String × String) :=
  match get_hashed_pathname fs.manifest path with
  | none => Except.error RimeError.valueError
  | some hashed => Except.ok (posixpathJoin fs.root hashed, "rb")

/-- `IosZippedDeviceFilesystem`: holds a delegate plain iOS filesystem
(`self._real`) over the materialized archive. -/
structure IosZippedFS where
  real : IosFS

/-- `IosZippedDeviceFilesystem.scandir(path)`: delegates to `self._real`. -/
def IosZippedFS.scandir (z : IosZippedFS) (path : String) : List DirEntryM :=
  z.real.scandir path

/-- `DeviceFilesystem.walk(path)`: depth-first traversal built atop `scandir`,
recursing into directory entries and yielding the rest.  The Python generator
has no termination bound, so the recursion depth is bounded by `fuel`. -/
def walk (scandir : String → List DirEntryM) : Nat → String → List DirEntryM
  | 0, _ => []
  | fuel + 1, path =>
      ((scandir path).map
        (fun e => if e.isDirectory then walk scandir fuel e.path else [e])).flatten

/-- The fixed sibling filename for the decrypted manifest
(`IosEncryptedDeviceFilesystem.decrypted_manifest_filename`). -/
def decrypted_manifest_filename : String := "Manifest-decrypted.db"

/-- `IosEncryptedDeviceFilesystem`: the mutable attributes of an encrypted
iOS backup filesystem, together with the OS state it reads and writes.
`manifest`/`converter` model `self.manifest`/`self._converter` (`none` =
Python `None`); `backup` models `self._backup` as the passphrase the
`EncryptedBackup` object was constructed with; `diskFiles` models the set of
pathnames existing on disk. -/
structure EncState where
  root : String
  manifest : Option Manifest
  converter : Option Manifest
  passphrase : Option String
  backup : Option String
  settingsEncrypted : Bool
  diskFiles : List String
deriving DecidableEq

/-- `IosEncryptedDeviceFilesystem._decrypt_backup()`.  The guard
`if self._passphrase:` is Python truthiness, so a passphrase that is unset
or is the empty string takes the `else` branch and raises `NoPassphrase`.
The third-party decryption routine is modelled abstractly: constructing
`EncryptedBackup` always succeeds (storing the passphrase in
`self._backup`), and `save_manifest_file` writes the decrypted manifest and
clears the `encrypted` setting when the stored passphrase equals the
backup's true passphrase `correctPass`, else raises `ValueError`, surfaced
as `WrongPassphrase`. -/
def decrypt_backup (correctPass : String) (st : EncState) : EncState × Except RimeError Unit :=
  match st.passphrase with
  | some p =>
      if p == "" then
        (st, Except.error RimeError.noPassphrase)
      else
        let st1 := { st with backup := some p }
        if p == correctPass then
          ({ st1 with
              diskFiles := posixpathJoin st1.root decrypted_manifest_filename :: st1.diskFiles,
              settingsEncrypted := false },
           Except.ok ())
        else
          (st1, Except.error RimeError.wrongPassphrase)
  | none => (st, Except.error RimeError.noPassphrase)

/-- `IosEncryptedDeviceFilesystem.decrypt(passphrase)`: store the passphrase;
if the decrypted manifest file is absent, run `_decrypt_backup`; then connect
`self.manifest` to the decrypted manifest (whose `Files` rows are `rows`) and
initialize `self._converter`, returning `True`. -/
def EncState.decrypt (correctPass : String) (rows : Manifest) (st : EncState)
    (passphrase : String) : EncState × Except RimeError Bool :=
  let st1 := { st with passphrase := some passphrase }
  if posixpathJoin st1.root decrypted_manifest_filename ∈ st1.diskFiles then
    ({ st1 with manifest := some rows, converter := some rows }, Except.ok true)
  else
    match decrypt_backup correctPass st1 with
    | (st2, Except.error e) => (st2, Except.error e)
    | (st2, Except.ok _) =>
        ({ st2 with manifest := some rows, converter := some rows }, Except.ok true)

/-- `IosEncryptedDeviceFilesystem.scandir(path)`: returns `[]`
unconditionally. -/
def EncState.scandir (st : EncState) (path : String) : List DirEntryM := []

/-- `IosEncryptedDeviceFilesystem.exists(path)`: `False` when there is no
converter (no decrypted manifest), else `os.path.exists` on the resolved
physical pathname. -/
def EncState.exists_ (st : EncState) (path : String) : Except RimeError Bool :=
  match st.converter with
  | none => Except.ok false
  | some rows =>
      match get_hashed_pathname rows path with
      | none => Except.error RimeError.valueError
      | some real_path => Except.ok (posixpathJoin st.root real_path ∈ st.diskFiles)

/-- `IosEncryptedDeviceFilesystem.getsize(path)`: `NotDecrypted` when there is
no converter, else the `os.path.getsize` call on the resolved physical
pathname, modelled as the pathname handed to the OS. -/
def EncState.getsize (st : EncState) (path : String) : Except RimeError String :=
  match st.converter with
  | none => Except.error RimeError.notDecrypted
  | some rows =>
      match get_hashed_pathname rows path with
      | none => Except.error RimeError.valueError
      | some hashed => Except.ok (posixpathJoin st.root hashed)

/-- `IosEncryptedDeviceFilesystem.open(path)`: `NotDecrypted` when there is no
converter; else the source passes `'rb'` as a third component of
`os.path.join` and calls the one-argument `open`, so the OS is handed the
pathname `os.path.join(root, hashed, 'rb')` with the default mode `'r'`. -/
def EncState.open_ (st : EncState) (path : String) : Except RimeError (String × String) :=
  match st.converter with
  | none => Except.error RimeError.notDecrypted
  | some rows =>
      match get_hashed_pathname rows path with
      | none => Except.error RimeError.valueError
      | some hashed => Except.ok (posixpathJoin (posixpathJoin st.root hashed) "rb", "r")

/-- `IosEncryptedDeviceFilesystem.listdir(path)`: `NotDecrypted` when the
manifest connection is unset, else the `relativePath` of every `Files` row
whose `relativePath` equals `os.path.join(root, path)`. -/
def EncState.listdir (st : EncState) (path : String) : Except RimeError (List String) :=
  match st.manifest with
  | none => Except.error RimeError.notDecrypted
  | some rows =>
      Except.ok ((rows.filter (fun row => row.relativePath == posixpathJoin st.root path)).map
        (fun row => row.relativePath))

/-- `IosEncryptedDeviceFilesystem.decrypt_file(path, decrypted_hashed_pathname)`:
ensure a backup handle exists (running `_decrypt_backup` if not), split the
path, and extract `relative_path` to `os.path.join(root, decrypted_hashed_pathname)`.
Extraction with the abstract backup handle succeeds, writing the output file,
iff the handle was built with the true passphrase. -/
def EncState.decrypt_file (correctPass : String) (st : EncState) (path : String)
    (decrypted_hashed_pathname : String) : EncState × Except RimeError Unit :=
  let step :=
    match st.backup with
    | none => decrypt_backup correctPass st
    | some _ => (st, Except.ok ())
  match step with
  | (st2, Except.error e) => (st2, Except.error e)
  | (st2, Except.ok _) =>
      match splitFirstSlash path.data with
      | none => (st2, Except.error RimeError.valueError)
      | some _ =>
          match st2.backup with
          | some bp =>
              if bp == correctPass then
                ({ st2 with
                    diskFiles := posixpathJoin st2.root decrypted_hashed_pathname :: st2.diskFiles },
                 Except.ok ())
              else (st2, Except.error RimeError.wrongPassphrase)
          | none => (st2, Except.error RimeError.wrongPassphrase)

/-- `IosEncryptedDeviceFilesystem.sqlite3_connect(path)`: `NotDecrypted` when
there is no converter; else resolve the hashed pathname, append
`'-decrypted'`, decrypt the payload file on demand if the decrypted sibling
is absent, and connect to it (the connection is modelled as the pathname
connected to). -/
def EncState.sqlite3_connect (correctPass : String) (st : EncState) (path : String) :
    EncState × Except RimeError String :=
  match st.converter with
  | none => (st, Except.error RimeError.notDecrypted)
  | some rows =>
      match get_hashed_pathname rows path with
      | none => (st, Except.error RimeError.valueError)
      | some hashed =>
          let decrypted_hashed_pathname := hashed ++ "-decrypted"
          let decrypted_file_path := posixpathJoin st.root decrypted_hashed_pathname
          if decrypted_file_path ∈ st.diskFiles then
            (st, Except.ok decrypted_file_path)
          else
            match st.decrypt_file correctPass path decrypted_hashed_pathname with
            | (st2, Except.error e) => (st2, Except.error e)
            | (st2, Except.ok _) => (st2, Except.ok decrypted_file_path)

/-- A top-level entry of a zip archive's root, with its name and whether it
is a directory. -/
structure ZipEntry where
  name : String
  isDirectory : Bool
deriving DecidableEq

/-- `zipsupport.get_zipfile_main_dir(zf)`: iterate over the archive root's
entries and return the first directory; raise `ValueError` (the spec's
`MalformedArchive`) if none is found. -/
def get_zipfile_main_dir (entries : List ZipEntry) : Except RimeError ZipEntry :=
  match entries.find? (fun e => e.isDirectory) with
  | some e => Except.ok e
  | none => Except.error RimeError.malformedArchive

/-- The on-disk state the archive materializer manipulates: whether the
working directory exists, the completion marker file with its timestamp
content (`none` = absent; a marker can only live inside the directory), and
how many times `extractall` has run. -/
structure MatState where
  dirExists : Bool
  marker : Option Nat
  extractions : Nat
deriving DecidableEq

/-- `ZippedFilesystem._is_unzipped()`: does the completion marker exist? -/
def is_unzipped (st : MatState) : Bool := st.marker.isSome

/-- `ZippedFilesystem.__init__`: if the working directory exists without the
completion marker, delete it (`shutil.rmtree`); if the marker is still
absent, extract the archive (`_unzip`) and write the marker with the current
time `now`. -/
def zippedFilesystemInit (now : Nat) (st : MatState) : MatState :=
  let st1 :=
    if st.dirExists && !(is_unzipped st) then
      { st with dirExists := false, marker := none }
    else st
  if !(is_unzipped st1) then
    { st1 with dirExists := true, marker := some now, extractions := st1.extractions + 1 }
  else st1

/-- Is every character a slash? -/
def allSlashes (l : List Char) : Bool := l.all (fun c => c == '/')

/-- Strip trailing slashes (Python `head.rstrip('/')`). -/
def rstripSlashes (l : List Char) : List Char := (l.reverse.dropWhile (fun c => c == '/')).reverse

/-- `os.path.dirname(p)` (POSIX): the prefix up to and including the last
slash, with trailing slashes stripped unless the prefix is all slashes. -/
def os_path_dirname (p : String) : String :=
  let head := (p.data.reverse.dropWhile (fun c => c != '/')).reverse
  if head.isEmpty || allSlashes head then ⟨head⟩ else ⟨rstripSlashes head⟩

/-- `os.path.basename(p)` (POSIX): everything after the last slash. -/
def os_path_basename (p : String) : String :=
  ⟨(p.data.reverse.takeWhile (fun c => c != '/')).reverse⟩

/-- `os.path.splitext(p)` (POSIX): split off the extension at the last dot of
the basename, unless the basename up to that dot consists only of dots. -/
def os_path_splitext (p : String) : String × String :=
  let rev := p.data.reverse
  let baseRev := rev.takeWhile (fun c => c != '/')
  let extRev := baseRev.takeWhile (fun c => c != '.')
  match baseRev.dropWhile (fun c => c != '.') with
  | [] => (p, "")
  | _ :: stemRev =>
      if stemRev.any (fun c => c != '.') then
        (⟨(rev.drop (extRev.length + 1)).reverse⟩, ⟨'.' :: extRev.reverse⟩)
      else (p, "")

/-- `ZippedFilesystem.zipped_pathname_to_unzipped_dirname(zipped_pathname)`:
`os.path.join(dirname, '_unzipped_' + stem-of-basename)`. -/
def zipped_pathname_to_unzipped_dirname (zipped_pathname : String) : String :=
  let dirname := os_path_dirname zipped_pathname
  let filename := (os_path_splitext (os_path_basename zipped_pathname)).1
  posixpathJoin dirname ("_unzipped_" ++ filename)

/-- `FSLibFilesystem.dirname(pathname)`: `'/'` when there is no slash, else
everything before the last slash. -/
def FSLibFilesystem.dirname (pathname : String) : String :=
  if pathname.data.any (fun c => c == '/') then
    ⟨((pathname.data.reverse.dropWhile (fun c => c != '/')).drop 1).reverse⟩
  else "/"

/-- `FSLibFilesystem.basename(pathname)`: `pathname` when there is no slash,
else everything after the last slash. -/
def FSLibFilesystem.basename (pathname : String) : String :=
  if pathname.data.any (fun c => c == '/') then
    ⟨(pathname.data.reverse.takeWhile (fun c => c != '/')).reverse⟩
  else pathname

/-! ## Helper lemmas -/

theorem sha1Hex_abc : sha1Hex "abc" = "a9993e364706816aba3e25717850c26c9cd0d89d" := by decide

theorem zipped_dirname_example :
    zipped_pathname_to_unzipped_dirname "a/b.zip" = "a/_unzipped_b" := by decide

theorem posixpathJoin_eq_concat (a b : String)
    (hb : startsWithSlash b.data = false)
    (ha : a.data ≠ [])
    (ha2 : endsWithSlash a.data = false) :
    posixpathJoin a b = a ++ "/" ++ b := by
  have h1 : a.data.isEmpty = false := by
    cases h : a.data with
    | nil => exact absurd h ha
    | cons c l => rfl
  simp [posixpathJoin, hb, ha2, h1]

theorem hexDigitChar_ne_slash : ∀ n : Nat, n < 16 → hexDigitChar n ≠ '/' := by decide

theorem length_toHex8 (x : Nat) : (toHex8 x).length = 8 := rfl

theorem sha1HexChars_shape (msg : List Nat) :
    ∃ c0 c1 rest, sha1HexChars msg = c0 :: c1 :: rest ∧ c0 ≠ '/' ∧ c1 ≠ '/' ∧
      rest.length = 38 := by
  refine ⟨hexDigitChar (((sha1Compute msg).h0 >>> 28) % 16),
          hexDigitChar (((sha1Compute msg).h0 >>> 24) % 16),
          [hexDigitChar (((sha1Compute msg).h0 >>> 20) % 16),
           hexDigitChar (((sha1Compute msg).h0 >>> 16) % 16),
           hexDigitChar (((sha1Compute msg).h0 >>> 12) % 16),
           hexDigitChar (((sha1Compute msg).h0 >>> 8) % 16),
           hexDigitChar (((sha1Compute msg).h0 >>> 4) % 16),
           hexDigitChar (((sha1Compute msg).h0 >>> 0) % 16)]
            ++ toHex8 (sha1Compute msg).h1 ++ toHex8 (sha1Compute msg).h2
            ++ toHex8 (sha1Compute msg).h3 ++ toHex8 (sha1Compute msg).h4,
          ?_, ?_, ?_, ?_⟩
  · simp [sha1HexChars, toHex8]
  · exact hexDigitChar_ne_slash _ (Nat.mod_lt _ (by norm_num))
  · exact hexDigitChar_ne_slash _ (Nat.mod_lt _ (by norm_num))
  · simp [length_toHex8]

theorem posixpathJoin_slice (f : String) (h1 : f.data ≠ []) (h2 : '/' ∉ f.data.take 2) :
    posixpathJoin (pySlice2 f) f = pySlice2 f ++ "/" ++ f := by
  obtain ⟨c, t, hct⟩ : ∃ c t, f.data = c :: t := by
    cases hf : f.data with
    | nil => exact absurd hf h1
    | cons c t => exact ⟨c, t, rfl⟩
  have hcmem : c ∈ f.data.take 2 := by rw [hct]; simp [List.take]
  have hc : c ≠ '/' := fun hcs => h2 (hcs ▸ hcmem)
  apply posixpathJoin_eq_concat
  · rw [hct]
    simpa [startsWithSlash] using hc
  · show f.data.take 2 ≠ []
    rw [hct]; simp
  · show endsWithSlash (f.data.take 2) = false
    rw [hct]
    cases ht : t with
    | nil => simpa [endsWithSlash, startsWithSlash, List.take] using hc
    | cons c1 t1 =>
        have hc1 : c1 ≠ '/' := by
          refine fun hcs => h2 (hcs ▸ ?_)
          rw [hct, ht]; simp [List.take]
        simpa [endsWithSlash, startsWithSlash, List.take] using hc1

theorem sha1Hex_slice (s : String) :
    posixpathJoin (pySlice2 (sha1Hex s)) (sha1Hex s) = pySlice2 (sha1Hex s) ++ "/" ++ sha1Hex s := by
  obtain ⟨c0, c1, rest, hsh, h0, h1, _⟩ := sha1HexChars_shape (utf8Encode s)
  have hdata : (sha1Hex s).data = c0 :: c1 :: rest := hsh
  apply posixpathJoin_slice
  · rw [hdata]; simp
  · rw [hdata]
    simp only [List.take, List.mem_cons, List.not_mem_nil, or_false]
    rintro (h | h)
    · exact h0 h.symm
    · exact h1 h.symm

theorem get_hashed_pathname_found (m : Manifest) (path : String) (d r : List Char)
    (row : FilesRow)
    (hsplit : splitFirstSlash path.data = some (d, r))
    (hfind : List.find?
        (fun row => row.domain == (⟨d⟩ : String) && row.relativePath == (⟨r⟩ : String)) m
        = some row) :
    get_hashed_pathname m path = some (posixpathJoin (pySlice2 row.fileID) row.fileID) := by
  simp [get_hashed_pathname, hsplit, hfind]

theorem get_hashed_pathname_miss (m : Manifest) (path : String) (d r : List Char)
    (hsplit : splitFirstSlash path.data = some (d, r))
    (hfind : List.find?
        (fun row => row.domain == (⟨d⟩ : String) && row.relativePath == (⟨r⟩ : String)) m
        = none) :
    get_hashed_pathname m path =
      some (posixpathJoin (pySlice2 (get_ios_hash ⟨d⟩ ⟨r⟩)) (get_ios_hash ⟨d⟩ ⟨r⟩)) := by
  simp [get_hashed_pathname, hsplit, hfind]

/-! ## C1 -/

/-- C1 (amended): for a logical path splitting as `domain/relativePath`, if
the manifest's first matching row has `fileID` that is nonempty and has no
slash among its first two characters (true of every hex-digest fileID), the
resolved pathname is `fileID[0:2] + '/' + fileID`; with no matching row it
is `h[0:2] + '/' + h` for `h` the SHA-1 hex digest of
`domain + '-' + relativePath`, unconditionally; and the concrete scenario:
a `Files` row `(fileID='ab12…', domain='HomeDomain',
relativePath='Library/SMS/sms.db')` resolves
`'HomeDomain/Library/SMS/sms.db'` to `'ab/ab12…'`. -/
theorem c1_get_hashed_pathname (m : Manifest) (path : String) (d r : List Char)
    (hsplit : splitFirstSlash path.data = some (d, r)) :
    (∀ row : FilesRow,
        List.find?
            (fun row => row.domain == (⟨d⟩ : String) && row.relativePath == (⟨r⟩ : String)) m
          = some row →
        row.fileID.data ≠ [] → '/' ∉ row.fileID.data.take 2 →
        get_hashed_pathname m path = some (pySlice2 row.fileID ++ "/" ++ row.fileID))
    ∧ (List.find?
          (fun row => row.domain == (⟨d⟩ : String) && row.relativePath == (⟨r⟩ : String)) m
        = none →
        get_hashed_pathname m path =
          some (pySlice2 (get_ios_hash ⟨d⟩ ⟨r⟩) ++ "/" ++ get_ios_hash ⟨d⟩ ⟨r⟩))
    ∧ get_hashed_pathname
        [⟨"ab129f86d331ba24bc875401fe51f6f671f997d1", "HomeDomain", "Library/SMS/sms.db"⟩]
        "HomeDomain/Library/SMS/sms.db"
        = some "ab/ab129f86d331ba24bc875401fe51f6f671f997d1" := by
  refine ⟨?_, ?_, by decide⟩
  · intro row hfind h1 h2
    rw [get_hashed_pathname_found m path d r row hsplit hfind,
      posixpathJoin_slice row.fileID h1 h2]
  · intro hfind
    rw [get_hashed_pathname_miss m path d r hsplit hfind, get_ios_hash, sha1Hex_slice]

/-- C1 witness: the theorem applied to the SMS-database path over an empty
manifest, evaluating the hash branch on a concrete input. -/
theorem c1_get_hashed_pathname_witness :
    splitFirstSlash "HomeDomain/Library/SMS/sms.db".data
        = some ("HomeDomain".data, "Library/SMS/sms.db".data)
    ∧ get_hashed_pathname [] "HomeDomain/Library/SMS/sms.db"
        = some "3d/3d0d7e5fb2ce288813306e4d4636395e047a3d28" := by
  have h := c1_get_hashed_pathname [] "HomeDomain/Library/SMS/sms.db"
    "HomeDomain".data "Library/SMS/sms.db".data (by decide)
  exact ⟨by decide, (h.2.1 rfl).trans (by decide)⟩

/-- C1 counterexample: the claim quantifies over arbitrary manifest rows, but
for a row whose `fileID` begins with `'/'`, `posixpath.join(fileID[:2], fileID)`
returns `fileID` itself, not `fileID[0:2] + '/' + fileID`. -/
theorem c1_counterexample :
    get_hashed_pathname [⟨"/x", "X", "Y"⟩] "X/Y" = some "/x"
    ∧ ("/x" : String) ≠ pySlice2 "/x" ++ "/" ++ "/x" := by decide

/-! ## C4 -/

theorem splitFirstSlash_append (l r : List Char) (hd : '/' ∉ l) :
    splitFirstSlash (l ++ '/' :: r) = some (l, r) := by
  induction l with
  | nil => simp [splitFirstSlash]
  | cons c t ih =>
      have hc : (c == '/') = false := beq_eq_false_iff_ne.mpr (fun h => hd (by simp [h]))
      simp [splitFirstSlash, hc, ih (fun hm => hd (List.mem_cons_of_mem _ hm))]

theorem data_concat_slash (d r : String) :
    (d ++ "/" ++ r).data = d.data ++ '/' :: r.data := by
  simp [String.data_append]

theorem get_ios_hash_slice (dm rp : String) :
    posixpathJoin (pySlice2 (get_ios_hash dm rp)) (get_ios_hash dm rp)
      = pySlice2 (get_ios_hash dm rp) ++ "/" ++ get_ios_hash dm rp :=
  sha1Hex_slice (dm ++ "-" ++ rp)

/-- C4 (amended): resolution is deterministic, and for two pairs neither of
which is registered in the manifest, the resolved physical paths differ
whenever the SHA-1 digests of `domain + '-' + relativePath` differ.  (The
unamended claim fails: two distinct pairs can produce the same hashable
string, since the hyphen join is ambiguous when the domain contains a
hyphen — see the counterexample.) -/
theorem c4_resolution (m : Manifest) (d1 r1 d2 r2 : String)
    (hd1 : '/' ∉ d1.data) (hd2 : '/' ∉ d2.data)
    (hne : (d1, r1) ≠ (d2, r2))
    (hm1 : List.find? (fun row => row.domain == d1 && row.relativePath == r1) m = none)
    (hm2 : List.find? (fun row => row.domain == d2 && row.relativePath == r2) m = none)
    (hh : get_ios_hash d1 r1 ≠ get_ios_hash d2 r2) :
    get_hashed_pathname m (d1 ++ "/" ++ r1) = get_hashed_pathname m (d1 ++ "/" ++ r1)
    ∧ get_hashed_pathname m (d1 ++ "/" ++ r1) ≠ get_hashed_pathname m (d2 ++ "/" ++ r2) := by
  refine ⟨rfl, ?_⟩
  have hs1 : splitFirstSlash (d1 ++ "/" ++ r1).data = some (d1.data, r1.data) := by
    rw [data_concat_slash]; exact splitFirstSlash_append _ _ hd1
  have hs2 : splitFirstSlash (d2 ++ "/" ++ r2).data = some (d2.data, r2.data) := by
    rw [data_concat_slash]; exact splitFirstSlash_append _ _ hd2
  have e1 : get_hashed_pathname m (d1 ++ "/" ++ r1)
      = some (pySlice2 (get_ios_hash d1 r1) ++ "/" ++ get_ios_hash d1 r1) := by
    rw [get_hashed_pathname_miss m _ _ _ hs1 hm1]
    exact congrArg some (get_ios_hash_slice d1 r1)
  have e2 : get_hashed_pathname m (d2 ++ "/" ++ r2)
      = some (pySlice2 (get_ios_hash d2 r2) ++ "/" ++ get_ios_hash d2 r2) := by
    rw [get_hashed_pathname_miss m _ _ _ hs2 hm2]
    exact congrArg some (get_ios_hash_slice d2 r2)
  rw [e1, e2]
  intro heq
  apply hh
  have heq' := Option.some.inj heq
  have hdata := congrArg String.data heq'
  rw [data_concat_slash, data_concat_slash] at hdata
  obtain ⟨a0, a1, ra, hA, _, _, _⟩ := sha1HexChars_shape (utf8Encode (d1 ++ "-" ++ r1))
  obtain ⟨b0, b1, rb, hB, _, _, _⟩ := sha1HexChars_shape (utf8Encode (d2 ++ "-" ++ r2))
  have hA' : (get_ios_hash d1 r1).data = a0 :: a1 :: ra := hA
  have hB' : (get_ios_hash d2 r2).data = b0 :: b1 :: rb := hB
  have hp1 : (pySlice2 (get_ios_hash d1 r1)).data = [a0, a1] := by
    show (get_ios_hash d1 r1).data.take 2 = [a0, a1]
    rw [hA']
    rfl
  have hp2 : (pySlice2 (get_ios_hash d2 r2)).data = [b0, b1] := by
    show (get_ios_hash d2 r2).data.take 2 = [b0, b1]
    rw [hB']
    rfl
  rw [hp1, hp2, hA', hB'] at hdata
  have ht := congrArg (fun l => List.drop 3 l) hdata
  simp only [List.cons_append, List.nil_append, List.drop_succ_cons, List.drop_zero] at ht
  apply String.ext
  rw [hA', hB']
  exact ht

/-- C4 witness: two pairs with distinct digests, over the empty manifest,
resolve to distinct physical paths. -/
theorem c4_resolution_witness :
    (("HomeDomain", "a") : String × String) ≠ ("HomeDomain", "b")
    ∧ get_ios_hash "HomeDomain" "a" ≠ get_ios_hash "HomeDomain" "b"
    ∧ get_hashed_pathname [] ("HomeDomain" ++ "/" ++ "a")
        ≠ get_hashed_pathname [] ("HomeDomain" ++ "/" ++ "b") := by
  refine ⟨by decide, by decide, ?_⟩
  exact (c4_resolution [] "HomeDomain" "a" "HomeDomain" "b" (by decide) (by decide)
    (by decide) rfl rfl (by decide)).2

/-- C4 counterexample: `('a-b', 'c')` and `('a', 'b-c')` are distinct pairs,
neither registered in the (empty) manifest, yet both hash the string
`'a-b-c'` and resolve to the same physical path. -/
theorem c4_counterexample :
    (("a-b", "c") : String × String) ≠ ("a", "b-c")
    ∧ get_hashed_pathname [] "a-b/c" = get_hashed_pathname [] "a/b-c" := by
  constructor
  · decide
  · decide

/-! ## C5 -/

theorem fileID_unique {m : Manifest}
    (hkey : m.Pairwise (fun a b => a.fileID ≠ b.fileID)) :
    ∀ {a b : FilesRow}, a ∈ m → b ∈ m → a.fileID = b.fileID → a = b := by
  induction m with
  | nil => intro a b ha; cases ha
  | cons x t ih =>
      intro a b ha hb hab
      obtain ⟨hx, ht⟩ := List.pairwise_cons.mp hkey
      rcases List.mem_cons.mp ha with rfl | ha' <;> rcases List.mem_cons.mp hb with rfl | hb'
      · rfl
      · exact absurd hab (hx _ hb')
      · exact absurd hab.symm (hx _ ha')
      · exact ih ht ha' hb' hab

/-- C5: `add_file` is a guarded upsert.  With `h` the derived hash of the
split path, over a manifest whose rows have pairwise-distinct `fileID`s (the
`Files` primary-key invariant): if no row carries `h`, exactly the row
`(h, domain, relativePath)` is appended; if a row carries `h` with the same
pair, the manifest is returned unchanged; if a row carries `h` with a
different pair, the call fails with `HashCollision` and nothing is written. -/
theorem c5_add_file (m : Manifest) (path : String) (d r : List Char)
    (hsplit : splitFirstSlash path.data = some (d, r))
    (hkey : m.Pairwise (fun a b => a.fileID ≠ b.fileID)) :
    ((∀ row ∈ m, row.fileID ≠ get_ios_hash ⟨d⟩ ⟨r⟩) →
        add_file m path = Except.ok (m ++ [⟨get_ios_hash ⟨d⟩ ⟨r⟩, ⟨d⟩, ⟨r⟩⟩]))
    ∧ (∀ row ∈ m, row.fileID = get_ios_hash ⟨d⟩ ⟨r⟩ →
        row.domain = (⟨d⟩ : String) → row.relativePath = (⟨r⟩ : String) →
        add_file m path = Except.ok m)
    ∧ (∀ row ∈ m, row.fileID = get_ios_hash ⟨d⟩ ⟨r⟩ →
        ¬(row.domain = (⟨d⟩ : String) ∧ row.relativePath = (⟨r⟩ : String)) →
        add_file m path = Except.error (RimeError.hashCollision path)) := by
  refine ⟨?_, ?_, ?_⟩
  · intro hnone
    have hfind : List.find? (fun row => row.fileID == get_ios_hash ⟨d⟩ ⟨r⟩) m = none := by
      rw [List.find?_eq_none]
      intro x hx
      simpa using hnone x hx
    simp [add_file, hsplit, hfind]
  · intro row hrow hid hdom hrel
    have hsome : (List.find? (fun row => row.fileID == get_ios_hash ⟨d⟩ ⟨r⟩) m).isSome := by
      rw [List.find?_isSome]
      exact ⟨row, hrow, by simpa using hid⟩
    obtain ⟨row', hfind⟩ := Option.isSome_iff_exists.mp hsome
    have hrow' : row' ∈ m := List.mem_of_find?_eq_some hfind
    have hid' : row'.fileID = get_ios_hash ⟨d⟩ ⟨r⟩ := by
      simpa using List.find?_some hfind
    have : row' = row := fileID_unique hkey hrow' hrow (hid'.trans hid.symm)
    subst this
    simp [add_file, hsplit, hfind, hdom, hrel]
  · intro row hrow hid hne
    have hsome : (List.find? (fun row => row.fileID == get_ios_hash ⟨d⟩ ⟨r⟩) m).isSome := by
      rw [List.find?_isSome]
      exact ⟨row, hrow, by simpa using hid⟩
    obtain ⟨row', hfind⟩ := Option.isSome_iff_exists.mp hsome
    have hrow' : row' ∈ m := List.mem_of_find?_eq_some hfind
    have hid' : row'.fileID = get_ios_hash ⟨d⟩ ⟨r⟩ := by
      simpa using List.find?_some hfind
    have : row' = row := fileID_unique hkey hrow' hrow (hid'.trans hid.symm)
    subst this
    have hcond : (row'.relativePath == (⟨r⟩ : String) && row'.domain == (⟨d⟩ : String)) = false := by
      by_cases hdr : row'.domain = (⟨d⟩ : String)
      · by_cases hrr : row'.relativePath = (⟨r⟩ : String)
        · exact absurd ⟨hdr, hrr⟩ hne
        · simp [hrr]
      · simp [hdr]
    simp [add_file, hsplit, hfind, hcond]

/-- C5 witness: adding a file to an empty manifest inserts exactly one row
with the derived hash. -/
theorem c5_add_file_witness :
    add_file [] "HomeDomain/a.db"
        = Except.ok [⟨get_ios_hash "HomeDomain" "a.db", "HomeDomain", "a.db"⟩]
    ∧ get_ios_hash "HomeDomain" "a.db" = "485948e2e2f489edc56faecc487a6575018d6542" := by
  have h := (c5_add_file [] "HomeDomain/a.db" "HomeDomain".data "a.db".data
    (by decide) List.Pairwise.nil).1 (by intro row hrow; cases hrow)
  exact ⟨h, by decide⟩

/-! ## C2 -/

/-- C2 (amended): in the `NotDecrypted` state (manifest connection and
converter unset), `getsize`, `open`, `sqlite3_connect` and `listdir` fail
with `NotDecrypted`; but `scandir` returns the empty list and `exists`
returns `False`, each without error, rather than failing. -/
theorem c2_not_decrypted_ops (st : EncState) (path : String)
    (hconv : st.converter = none) (hman : st.manifest = none) :
    st.getsize path = Except.error RimeError.notDecrypted
    ∧ st.open_ path = Except.error RimeError.notDecrypted
    ∧ (∀ cp : String, st.sqlite3_connect cp path = (st, Except.error RimeError.notDecrypted))
    ∧ st.listdir path = Except.error RimeError.notDecrypted
    ∧ st.scandir path = []
    ∧ st.exists_ path = Except.ok false := by
  refine ⟨?_, ?_, ?_, ?_, rfl, ?_⟩
  · simp [EncState.getsize, hconv]
  · simp [EncState.open_, hconv]
  · intro cp
    simp [EncState.sqlite3_connect, hconv]
  · simp [EncState.listdir, hman]
  · simp [EncState.exists_, hconv]

/-- C2 witness: the theorem applied to a concrete freshly-constructed
not-yet-decrypted filesystem state. -/
theorem c2_not_decrypted_ops_witness :
    EncState.getsize ⟨"/backup", none, none, none, none, true, []⟩ "HomeDomain/Library/SMS/sms.db"
        = Except.error RimeError.notDecrypted
    ∧ EncState.open_ ⟨"/backup", none, none, none, none, true, []⟩ "HomeDomain/Library/SMS/sms.db"
        = Except.error RimeError.notDecrypted
    ∧ EncState.sqlite3_connect "secret" ⟨"/backup", none, none, none, none, true, []⟩
          "HomeDomain/Library/SMS/sms.db"
        = (⟨"/backup", none, none, none, none, true, []⟩, Except.error RimeError.notDecrypted)
    ∧ EncState.listdir ⟨"/backup", none, none, none, none, true, []⟩ "HomeDomain"
        = Except.error RimeError.notDecrypted := by
  have h := c2_not_decrypted_ops ⟨"/backup", none, none, none, none, true, []⟩
    "HomeDomain/Library/SMS/sms.db" rfl rfl
  have h2 := c2_not_decrypted_ops ⟨"/backup", none, none, none, none, true, []⟩
    "HomeDomain" rfl rfl
  exact ⟨h.1, h.2.1, h.2.2.1 "secret", h2.2.2.2.1⟩

/-- C2 counterexample: in the `NotDecrypted` state, `exists` returns the
value `False` and `scandir` returns `[]` — neither fails with
`NotDecrypted`, contradicting the claim that every read and list operation
does. -/
theorem c2_counterexample :
    EncState.exists_ ⟨"/backup", none, none, none, none, true, []⟩ "HomeDomain/Library/SMS/sms.db"
        = Except.ok false
    ∧ EncState.scandir ⟨"/backup", none, none, none, none, true, []⟩ "HomeDomain" = [] := by
  exact ⟨rfl, rfl⟩

/-! ## C3 -/

theorem decrypt_wrong (correct : String) (rows : Manifest) (st : EncState) (p : String)
    (hdisk : posixpathJoin st.root decrypted_manifest_filename ∉ st.diskFiles)
    (hp0 : p ≠ "") (hp : p ≠ correct) :
    st.decrypt correct rows p
      = ({ st with passphrase := some p, backup := some p },
         Except.error RimeError.wrongPassphrase) := by
  have hp0b : (p == "") = false := beq_eq_false_iff_ne.mpr hp0
  have hpb : (p == correct) = false := beq_eq_false_iff_ne.mpr hp
  simp [EncState.decrypt, decrypt_backup, hp0b, hpb, hdisk]

theorem decrypt_right (correct : String) (rows : Manifest) (st : EncState)
    (hc0 : correct ≠ "")
    (hdisk : posixpathJoin st.root decrypted_manifest_filename ∉ st.diskFiles) :
    st.decrypt correct rows correct
      = ({ st with
            passphrase := some correct, backup := some correct,
            settingsEncrypted := false,
            diskFiles := posixpathJoin st.root decrypted_manifest_filename :: st.diskFiles,
            manifest := some rows, converter := some rows },
         Except.ok true) := by
  have hc0b : (correct == "") = false := beq_eq_false_iff_ne.mpr hc0
  simp [EncState.decrypt, decrypt_backup, hc0b, hdisk]

/-- C3 (amended): with no decrypted manifest on disk, `decrypt` with a wrong
NON-EMPTY passphrase fails with `WrongPassphrase` and leaves the filesystem
`NotDecrypted` (the decrypted-manifest file is still not written, the
manifest connection and converter stay unset); a subsequent `decrypt` with
the correct non-empty passphrase succeeds, writes the decrypted manifest to
the fixed sibling filename under the root, sets the manifest connection,
and initializes the resolver.  (The unamended claim fails at the empty
passphrase: `''` is falsy under `if self._passphrase:`, so the source
raises `NoPassphrase`, not `WrongPassphrase` — see the counterexample.) -/
theorem c3_decrypt_lifecycle (correct : String) (rows : Manifest) (st : EncState)
    (p q : String) (hp0 : p ≠ "") (hp : p ≠ correct) (hq : q = correct) (hq0 : q ≠ "")
    (hdisk : posixpathJoin st.root decrypted_manifest_filename ∉ st.diskFiles)
    (hman : st.manifest = none) (hconv : st.converter = none) :
    ∃ st1, st.decrypt correct rows p = (st1, Except.error RimeError.wrongPassphrase)
      ∧ st1.manifest = none ∧ st1.converter = none
      ∧ posixpathJoin st1.root decrypted_manifest_filename ∉ st1.diskFiles
      ∧ ∃ st2, st1.decrypt correct rows q = (st2, Except.ok true)
          ∧ st2.manifest = some rows ∧ st2.converter = some rows
          ∧ posixpathJoin st2.root decrypted_manifest_filename ∈ st2.diskFiles
          ∧ st2.settingsEncrypted = false := by
  subst hq
  refine ⟨{ st with passphrase := some p, backup := some p },
    decrypt_wrong q rows st p hdisk hp0 hp, by simpa using hman, by simpa using hconv,
    by simpa using hdisk, ?_⟩
  refine ⟨_, decrypt_right q rows { st with passphrase := some p, backup := some p }
    hq0 (by simpa using hdisk), ?_, ?_, ?_, ?_⟩
  · rfl
  · rfl
  · simp
  · rfl

/-- C3 witness: a concrete fresh encrypted filesystem, a wrong non-empty
passphrase, then the right one. -/
theorem c3_decrypt_lifecycle_witness :
    ("wrong" : String) ≠ ""
    ∧ ("wrong" : String) ≠ "secret"
    ∧ ("secret" : String) ≠ ""
    ∧ posixpathJoin "/backup" decrypted_manifest_filename ∉ ([] : List String)
    ∧ ∃ st1, EncState.decrypt "secret" [⟨"ab", "HomeDomain", "sms.db"⟩]
          ⟨"/backup", none, none, none, none, true, []⟩ "wrong"
        = (st1, Except.error RimeError.wrongPassphrase)
      ∧ st1.manifest = none ∧ st1.converter = none
      ∧ posixpathJoin st1.root decrypted_manifest_filename ∉ st1.diskFiles
      ∧ ∃ st2, st1.decrypt "secret" [⟨"ab", "HomeDomain", "sms.db"⟩] "secret"
          = (st2, Except.ok true)
          ∧ st2.manifest = some [⟨"ab", "HomeDomain", "sms.db"⟩]
          ∧ st2.converter = some [⟨"ab", "HomeDomain", "sms.db"⟩]
          ∧ posixpathJoin st2.root decrypted_manifest_filename ∈ st2.diskFiles
          ∧ st2.settingsEncrypted = false := by
  refine ⟨by decide, by decide, by decide, by simp, ?_⟩
  exact c3_decrypt_lifecycle "secret" [⟨"ab", "HomeDomain", "sms.db"⟩]
    ⟨"/backup", none, none, none, none, true, []⟩ "wrong" "secret"
    (by decide) (by decide) rfl (by decide) (by simp) rfl rfl

/-- C3 counterexample: the empty string is a cryptographically wrong
passphrase (distinct from the true one), yet `decrypt('')` on a fresh
encrypted filesystem fails with `NoPassphrase`, not `WrongPassphrase`: the
empty passphrase is falsy under `if self._passphrase:` and takes the
no-passphrase branch. -/
theorem c3_counterexample :
    ("" : String) ≠ "secret"
    ∧ (EncState.decrypt "secret" [⟨"ab", "HomeDomain", "sms.db"⟩]
        ⟨"/backup", none, none, none, none, true, []⟩ "").2
        = Except.error RimeError.noPassphrase
    ∧ RimeError.noPassphrase ≠ RimeError.wrongPassphrase := by
  exact ⟨by decide, rfl, by decide⟩

/-! ## C6 -/

/-- C6 (code bug): on a decrypted encrypted iOS filesystem, `open` hands the
OS the pathname `os.path.join(root, hashed, 'rb')` — the mode string has
slipped into the path — with default mode `'r'`; the plain iOS filesystem's
`open`, by contrast, opens the resolved location `os.path.join(root, hashed)`
in mode `'rb'` as the claim describes. -/
theorem c6_open_bug :
    EncState.open_
        ⟨"/backup",
         some [⟨"ab129f86d331ba24bc875401fe51f6f671f997d1", "HomeDomain", "Library/SMS/sms.db"⟩],
         some [⟨"ab129f86d331ba24bc875401fe51f6f671f997d1", "HomeDomain", "Library/SMS/sms.db"⟩],
         some "secret", some "secret", false, []⟩
        "HomeDomain/Library/SMS/sms.db"
      = Except.ok ("/backup/ab/ab129f86d331ba24bc875401fe51f6f671f997d1/rb", "r")
    ∧ IosFS.open_
        ⟨"/backup",
         [⟨"ab129f86d331ba24bc875401fe51f6f671f997d1", "HomeDomain", "Library/SMS/sms.db"⟩]⟩
        "HomeDomain/Library/SMS/sms.db"
      = Except.ok ("/backup/ab/ab129f86d331ba24bc875401fe51f6f671f997d1", "rb")
    ∧ (("/backup/ab/ab129f86d331ba24bc875401fe51f6f671f997d1/rb", "r") : String × String)
        ≠ ("/backup/ab/ab129f86d331ba24bc875401fe51f6f671f997d1", "rb") := by
  refine ⟨rfl, rfl, by decide⟩

/-! ## C7 -/

/-- C7 (amended): a zip whose root contains no top-level directory fails with
`MalformedArchive` (a `ValueError` in the source); but a zip whose root
contains two or more directories does not fail — `get_zipfile_main_dir`
proceeds with the first directory in archive order. -/
theorem c7_main_dir (entries : List ZipEntry) :
    ((∀ e ∈ entries, e.isDirectory = false) →
        get_zipfile_main_dir entries = Except.error RimeError.malformedArchive)
    ∧ (∀ e : ZipEntry, List.find? (fun x => x.isDirectory) entries = some e →
        get_zipfile_main_dir entries = Except.ok e) := by
  constructor
  · intro h
    have hfind : List.find? (fun x => x.isDirectory) entries = none := by
      rw [List.find?_eq_none]
      intro x hx
      simp [h x hx]
    simp [get_zipfile_main_dir, hfind]
  · intro e he
    simp [get_zipfile_main_dir, he]

/-- C7 witness: a dirless archive fails; an archive with a directory yields
that directory. -/
theorem c7_main_dir_witness :
    get_zipfile_main_dir [⟨"file.txt", false⟩] = Except.error RimeError.malformedArchive
    ∧ get_zipfile_main_dir [⟨"file.txt", false⟩, ⟨"main", true⟩] = Except.ok ⟨"main", true⟩ := by
  exact ⟨(c7_main_dir [⟨"file.txt", false⟩]).1 (by decide),
    (c7_main_dir [⟨"file.txt", false⟩, ⟨"main", true⟩]).2 ⟨"main", true⟩ (by decide)⟩

/-- C7 counterexample: a zip whose root holds two top-level directories does
not fail — the first directory is returned. -/
theorem c7_counterexample :
    get_zipfile_main_dir [⟨"a", true⟩, ⟨"b", true⟩] = Except.ok ⟨"a", true⟩
    ∧ (Except.ok (⟨"a", true⟩ : ZipEntry)
        ≠ (Except.error RimeError.malformedArchive : Except RimeError ZipEntry)) := by
  exact ⟨rfl, fun h => Except.noConfusion h⟩

/-! ## C8 -/

/-- C8: archive materialization is idempotent and self-healing — after
construction the completion marker exists; if the directory existed with the
marker, the state (marker and extraction count included) is unchanged and no
extraction runs; if the directory existed without the marker, it is
re-extracted exactly once and the marker is written; and the working
directory name is a pure function of the archive pathname. -/
theorem c8_materializer (now : Nat) (st : MatState) :
    (zippedFilesystemInit now st).marker.isSome = true
    ∧ (st.dirExists = true → st.marker.isSome = true → zippedFilesystemInit now st = st)
    ∧ (st.dirExists = true → st.marker = none →
        (zippedFilesystemInit now st).extractions = st.extractions + 1
        ∧ (zippedFilesystemInit now st).marker = some now
        ∧ (zippedFilesystemInit now st).dirExists = true)
    ∧ (∀ p : String, zipped_pathname_to_unzipped_dirname p
        = posixpathJoin (os_path_dirname p)
            ("_unzipped_" ++ (os_path_splitext (os_path_basename p)).1)) := by
  refine ⟨?_, ?_, ?_, fun p => rfl⟩
  · cases hm : st.marker with
    | none => cases hd : st.dirExists <;> simp [zippedFilesystemInit, is_unzipped, hm, hd]
    | some t => simp [zippedFilesystemInit, is_unzipped, hm]
  · intro hd hm
    simp [zippedFilesystemInit, is_unzipped, hd, hm]
  · intro hd hm
    simp [zippedFilesystemInit, is_unzipped, hd, hm]

/-- C8 witness: a directory with the marker is untouched; one without the
marker is re-extracted and gets a fresh marker. -/
theorem c8_materializer_witness :
    zippedFilesystemInit 99 ⟨true, some 7, 3⟩ = ⟨true, some 7, 3⟩
    ∧ (zippedFilesystemInit 99 ⟨true, none, 3⟩).extractions = 4
    ∧ (zippedFilesystemInit 99 ⟨true, none, 3⟩).marker = some 99 := by
  have h1 := (c8_materializer 99 ⟨true, some 7, 3⟩).2.1 rfl rfl
  have h2 := (c8_materializer 99 ⟨true, none, 3⟩).2.2.1 rfl rfl
  exact ⟨h1, h2.1, h2.2.1⟩

/-! ## C9 -/

theorem any_slash_dropWhile (l : List Char) (h : l.any (fun c => c == '/') = true) :
    ∃ suf, l.dropWhile (fun c => c != '/') = '/' :: suf := by
  induction l with
  | nil => simp at h
  | cons c t ih =>
      by_cases hc : c = '/'
      · subst hc
        exact ⟨t, by simp [List.dropWhile]⟩
      · have hcb : (c == '/') = false := beq_eq_false_iff_ne.mpr hc
        have ht : t.any (fun c => c == '/') = true := by
          simpa [List.any_cons, hcb] using h
        obtain ⟨suf, hs⟩ := ih ht
        refine ⟨suf, ?_⟩
        have hstep : List.dropWhile (fun c => c != '/') (c :: t)
            = List.dropWhile (fun c => c != '/') t := by
          simp [List.dropWhile, bne, hcb]
        rw [hstep, hs]

/-- C9 (amended): for every path containing a slash, `dirname` and
`basename` are pure string splits that recombine: `dirname(p) + '/' +
basename(p) = p`.  (The unamended claim fails for slashless paths — see the
counterexample.) -/
theorem c9_recombine (p : String) (hp : p.data.any (fun c => c == '/') = true) :
    FSLibFilesystem.dirname p ++ "/" ++ FSLibFilesystem.basename p = p := by
  have hrev : p.data.reverse.any (fun c => c == '/') = true := by
    rw [List.any_eq_true] at hp ⊢
    obtain ⟨x, hx, hpx⟩ := hp
    exact ⟨x, List.mem_reverse.mpr hx, hpx⟩
  obtain ⟨suf, hs⟩ := any_slash_dropWhile _ hrev
  have hsplitcat := List.takeWhile_append_dropWhile
    (p := fun c => c != '/') (l := p.data.reverse)
  rw [hs] at hsplitcat
  have hrec : suf.reverse ++ '/' :: (p.data.reverse.takeWhile (fun c => c != '/')).reverse
      = p.data := by
    have := congrArg List.reverse hsplitcat
    simpa [List.reverse_append] using this
  have hdir : FSLibFilesystem.dirname p = ⟨suf.reverse⟩ := by
    simp [FSLibFilesystem.dirname, hp, hs]
  have hbase : FSLibFilesystem.basename p
      = ⟨(p.data.reverse.takeWhile (fun c => c != '/')).reverse⟩ := by
    simp [FSLibFilesystem.basename, hp]
  apply String.ext
  rw [hdir, hbase, data_concat_slash]
  exact hrec

/-- C9 witness: the recombination law on the concrete path `'a/b'`. -/
theorem c9_recombine_witness :
    ("a/b".data.any (fun c => c == '/') = true)
    ∧ FSLibFilesystem.dirname "a/b" ++ "/" ++ FSLibFilesystem.basename "a/b" = "a/b" :=
  ⟨by decide, c9_recombine "a/b" (by decide)⟩

/-- C9 counterexample: for a path with no slash, `dirname` returns `'/'` and
`basename` returns the path, which recombine to `'//file'`, not `'file'`. -/
theorem c9_counterexample :
    FSLibFilesystem.dirname "file" = "/"
    ∧ FSLibFilesystem.basename "file" = "file"
    ∧ FSLibFilesystem.dirname "file" ++ "/" ++ FSLibFilesystem.basename "file" ≠ "file" := by
  decide

/-! ## C10 -/

theorem walk_nil (s : String → List DirEntryM) (h : ∀ q, s q = []) :
    ∀ fuel q, walk s fuel q = [] := by
  intro fuel
  induction fuel with
  | zero => intro q; rfl
  | succ n ih => intro q; simp [walk, h]

/-- C10: on a plain iOS filesystem and on the zipped iOS variant delegating
to it, `scandir` returns the empty list for every path regardless of the
manifest, and `walk` (at any recursion bound) consequently yields no
entries. -/
theorem c10_scandir_empty (fs : IosFS) (z : IosZippedFS) (path : String) :
    iosManifestScandir fs.manifest path = []
    ∧ fs.scandir path = []
    ∧ z.scandir path = []
    ∧ (∀ fuel q, walk fs.scandir fuel q = [])
    ∧ (∀ fuel q, walk z.scandir fuel q = []) :=
  ⟨rfl, rfl, rfl, walk_nil _ (fun _ => rfl), walk_nil _ (fun _ => rfl)⟩
